import Mathlib

/-
Verification development for the sandbox guard, effect executors, tool
dispatcher and orchestration loop of the project-generation program
(src/project-generation.py).  Python strings are modelled as lists of
characters, the filesystem as explicit state threaded through every
executor, and the planner service and the shell as oracle functions, so
that every definition is executable on concrete inputs.
-/

namespace ProjGen

/-- Python strings are modelled as lists of characters. -/
abbrev Str := List Char

/-- Charwise lower-casing, modelling `str.lower` on the ASCII fragment
(which is what `Char.toLower` implements). -/
def lowerStr (s : Str) : Str := s.map Char.toLower

/-- One step of Python `str.split` with no separator argument: accumulate
the current run of non-whitespace characters (in `acc`, reversed) and cut
a token at each whitespace character. -/
def splitWsAux : Str → Str → List Str
  | [], acc => if acc = [] then [] else [acc.reverse]
  | c :: cs, acc =>
    if c.isWhitespace then
      if acc = [] then splitWsAux cs [] else acc.reverse :: splitWsAux cs []
    else splitWsAux cs (c :: acc)

/-- Python `command.split()`: split on runs of whitespace, dropping empty
tokens. -/
def splitWs (s : Str) : List Str := splitWsAux s []

/-- The privilege-escalation token the command guard checks for. -/
def sudoTok : Str := "sudo".toList

/-- Source function `is_safe_command` (src/project-generation.py, lines
32-45): return false iff the literal token appears in
`command.lower().split()`. -/
def is_safe_command (command : Str) : Bool :=
  if sudoTok ∈ splitWs (lowerStr command) then false else true

/-- Split a raw path string at every slash (as `os.path.normpath` does);
empty pieces are kept and later dropped by normalization. -/
def splitSlashAux : Str → Str → List Str
  | [], acc => [acc.reverse]
  | c :: cs, acc =>
    if c = '/' then acc.reverse :: splitSlashAux cs [] else splitSlashAux cs (c :: acc)

/-- Split a path string on the slash separator. -/
def splitSlash (s : Str) : List Str := splitSlashAux s []

/-- One component step of `os.path.normpath`: empty and "." components are
dropped, ".." removes the previous component (and is dropped at the root,
as `normpath` does on absolute paths), anything else is appended. -/
def normStep (acc : List Str) (comp : Str) : List Str :=
  if comp = [] ∨ comp = ".".toList then acc
  else if comp = "..".toList then acc.dropLast
  else acc ++ [comp]

/-- `os.path.abspath` in component form: unless the raw path is already
absolute it is joined onto the working-directory components, then the
result is normalized.  The POSIX double-leading-slash special case of
`normpath` is not modelled. -/
def absComps (cwd : List Str) (p : Str) : List Str :=
  (splitSlash p).foldl normStep (match p with
    | '/' :: _ => ([] : List Str)
    | _ => cwd)

/-- Render an absolute component list back to the string `os.path.abspath`
returns: components joined by slashes. -/
def joinComps : List Str → Str
  | [] => []
  | [c] => c
  | c :: c2 :: rest => c ++ '/' :: joinComps (c2 :: rest)

/-- The rendered absolute path: a leading slash followed by the joined
components. -/
def renderAbs (comps : List Str) : Str := '/' :: joinComps comps

/-- Source function `is_safe_path` (src/project-generation.py, lines
15-30): both the candidate path and the working directory are run through
`os.path.abspath` at call time, and containment is tested with the string
method `startswith`.  The process working directory is the parameter
`cwd`, in component form as `os.getcwd()` reports it. -/
def is_safe_path (cwd : List Str) (p : Str) : Bool :=
  List.isPrefixOf (renderAbs (absComps cwd (renderAbs cwd))) (renderAbs (absComps cwd p))

/-- Modelled from the claim wording, for comparison with the source
predicate: the resolved absolute form of `p` is equal to or a descendant
of the resolved working directory, i.e. the working-directory components
are a componentwise prefix of the resolved components. -/
def isPathSafeSpec (cwd : List Str) (p : Str) : Prop :=
  cwd <+: absComps cwd p

instance (cwd : List Str) (p : Str) : Decidable (isPathSafeSpec cwd p) := by
  unfold isPathSafeSpec
  infer_instance

/-- Absolute filesystem paths in component form. -/
abbrev AbsPath := List Str

/-- The filesystem model: the set of existing directories and a map from
file paths to contents, both as lists.  The root directory always exists
and is kept implicit. -/
structure FS where
  dirs : List AbsPath
  files : List (AbsPath × Str)
deriving DecidableEq

/-- `os.path.isdir`: the root always exists, other paths must be stored. -/
def FS.isdir (fs : FS) (p : AbsPath) : Bool := decide (p = [] ∨ p ∈ fs.dirs)

/-- Contents of the file at `p`, when one exists. -/
def FS.getFile (fs : FS) (p : AbsPath) : Option Str :=
  (fs.files.find? (fun e => decide (e.1 = p))).map (fun e => e.2)

/-- `os.path.isfile`. -/
def FS.isfile (fs : FS) (p : AbsPath) : Bool := (fs.getFile p).isSome

/-- `os.path.exists`. -/
def FS.pathExists (fs : FS) (p : AbsPath) : Bool := fs.isdir p || fs.isfile p

/-- The write modes the tool registry declares for `write_to_file`. -/
inductive Mode
  | w
  | a
deriving DecidableEq

/-- Insert the paths of `xs` that are not already present, in order. -/
def insertAll (xs : List AbsPath) (d : List AbsPath) : List AbsPath :=
  xs.foldl (fun acc x => if x ∈ acc then acc else acc ++ [x]) d

/-- `os.makedirs(target, exist_ok)`: fails if a path on the chain up to
and including the target exists as a file, or if the target directory
already exists while `exist_ok` is false; otherwise creates every missing
ancestor directory and the target.  (The partial directories a failing
`makedirs` may leave behind are not modelled; no claim inspects the state
after a failed `makedirs`.) -/
def FS.makedirs (fs : FS) (target : AbsPath) (exist_ok : Bool) : Option FS :=
  if target.inits.any (fun q => fs.isfile q) then none
  else if !exist_ok && fs.isdir target then none
  else some { fs with dirs := insertAll target.inits fs.dirs }

/-- The contents a write in the given mode leaves in the file: mode "w"
replaces the old contents, mode "a" appends to them (an absent file
counts as empty). -/
def writtenContent (old : Option Str) (mode : Mode) (content : Str) : Str :=
  match mode with
  | Mode.w => content
  | Mode.a => old.getD [] ++ content

/-- `open(path, mode)` followed by `file.write(content)`: fails if the
target is a directory or its parent directory does not exist; otherwise
stores the contents the mode dictates. -/
def FS.openWrite (fs : FS) (target : AbsPath) (mode : Mode) (content : Str) : Option FS :=
  if fs.isdir target then none
  else if fs.isdir target.dropLast then
    some { fs with
      files := (target, writtenContent (fs.getFile target) mode content) ::
        fs.files.filter (fun e => decide (e.1 ≠ target)) }
  else none

/-- Source function `read_file` (src/project-generation.py, lines 47-70):
guard check first, then the file contents, with every failure (missing
file, directory in the way) mapped to `None` by the except clauses. -/
def read_file (cwd : List Str) (fs : FS) (filename : Str) : Option Str :=
  if is_safe_path cwd filename = false then none
  else fs.getFile (absComps cwd filename)

/-- The metadata record `get_file_metadata` assembles.  The creation,
modification and access timestamps and the permission string come from the
OS stat call and the wall clock, which are outside this model. -/
structure Metadata where
  name : Str
  size : Nat
  is_directory : Bool
  is_file : Bool
  absolute_path : Str
deriving DecidableEq

/-- Source function `get_file_metadata` (lines 72-118): guard check, then
existence check, then the stat record. -/
def get_file_metadata (cwd : List Str) (fs : FS) (filename : Str) : Option Metadata :=
  if is_safe_path cwd filename = false then none
  else
    if fs.pathExists (absComps cwd filename) = false then none
    else some
      { name := (absComps cwd filename).getLastD [],
        size := ((fs.getFile (absComps cwd filename)).getD []).length,
        is_directory := fs.isdir (absComps cwd filename),
        is_file := fs.isfile (absComps cwd filename),
        absolute_path := renderAbs (absComps cwd filename) }

/-- The listing record `list_directory_contents` returns. -/
structure DirListing where
  files : List Str
  directories : List Str
  total_files : Nat
  total_directories : Nat
deriving DecidableEq

/-- Names of the immediate children of `d` among the stored paths. -/
def childNames (ps : List AbsPath) (d : AbsPath) : List Str :=
  ps.filterMap (fun p => if p.dropLast = d ∧ p ≠ [] then p.getLast? else none)

/-- Source function `list_directory_contents` (lines 120-167): guard
check, existence check, directory check, then one listing pass that
classifies the children as files or directories. -/
def list_directory_contents (cwd : List Str) (fs : FS) (directory : Str) : Option DirListing :=
  if is_safe_path cwd directory = false then none
  else
    if fs.pathExists (absComps cwd directory) = false then none
    else if fs.isdir (absComps cwd directory) = false then none
    else some
      { files := childNames (fs.files.map (fun e => e.1)) (absComps cwd directory),
        directories := childNames fs.dirs (absComps cwd directory),
        total_files := (childNames (fs.files.map (fun e => e.1)) (absComps cwd directory)).length,
        total_directories := (childNames fs.dirs (absComps cwd directory)).length }

/-- `os.path.split`: cut after the last slash; the head then drops its
trailing slashes unless it consists of nothing but slashes. -/
def splitAtLastSlash : Str → Str × Str
  | [] => ([], [])
  | c :: cs =>
    if '/' ∈ cs then ((c :: (splitAtLastSlash cs).1), (splitAtLastSlash cs).2)
    else if c = '/' then ([c], cs)
    else ([], c :: cs)

/-- `os.path.dirname`. -/
def dirname (p : Str) : Str :=
  if (splitAtLastSlash p).1 ≠ [] ∧ ¬ ((splitAtLastSlash p).1.all (fun c => decide (c = '/'))) then
    ((splitAtLastSlash p).1.reverse.dropWhile (fun c => decide (c = '/'))).reverse
  else (splitAtLastSlash p).1

/-- Source function `write_to_file` (lines 169-196): guard check, then
creation of the missing parent directory chain (`os.makedirs`, invoked
only when the dirname is nonempty and does not yet exist), then open and
write in the requested mode.  The boolean is the success flag; every
failure is caught and becomes `false`.  A failure in `open` keeps the
directories `makedirs` just created, as in the source. -/
def write_to_file (cwd : List Str) (fs : FS) (filename content : Str) (mode : Mode) : Bool × FS :=
  if is_safe_path cwd filename = false then (false, fs)
  else
    match
      (if dirname filename ≠ [] ∧ fs.pathExists (absComps cwd (dirname filename)) = false then
        fs.makedirs (absComps cwd (dirname filename)) false
      else some fs) with
    | none => (false, fs)
    | some fs1 =>
      match fs1.openWrite (absComps cwd filename) mode content with
      | none => (false, fs1)
      | some fs2 => (true, fs2)

/-- The stdout, stderr and exit code captured from a subprocess run. -/
structure CmdResult where
  stdout : Str
  stderr : Str
  returncode : Int
deriving DecidableEq

/-- The shell is an oracle: a command may read and change the filesystem
in arbitrary ways and produces a result record. -/
abbrev Shell := FS → Str → CmdResult × FS

/-- Source function `run_command` (lines 198-234): the command guard runs
first, then the synchronous subprocess. -/
def run_command (shell : Shell) (fs : FS) (command : Str) : Option CmdResult × FS :=
  if is_safe_command command = false then (none, fs)
  else (some (shell fs command).1, (shell fs command).2)

/-- Source function `create_directory` (lines 236-256): guard check, then
`os.makedirs(directory_name, exist_ok=True)`; any failure becomes
`false`. -/
def create_directory (cwd : List Str) (fs : FS) (directory_name : Str) : Bool × FS :=
  if is_safe_path cwd directory_name = false then (false, fs)
  else
    match fs.makedirs (absComps cwd directory_name) true with
    | none => (false, fs)
    | some fs1 => (true, fs1)

/-- A trivial shell oracle, used only to instantiate witnesses. -/
def shellNop : Shell := fun fs _ => ({ stdout := [], stderr := [], returncode := 0 }, fs)

/-- Well-formedness of the filesystem model: the ancestors of every stored
directory are directories.  Real filesystems satisfy this; it is used only
to report that the whole parent chain exists after a successful write. -/
def FS.WF (fs : FS) : Prop :=
  ∀ p ∈ fs.dirs, ∀ q ∈ p.inits, fs.isdir q = true

instance (fs : FS) : Decidable (FS.WF fs) := by
  unfold FS.WF
  infer_instance

/-- The argument records of the six registered operations, as the
dispatcher extracts them from the invocation argument mapping; arguments
the registry declares optional are `Option`s. -/
inductive ToolArgs
  | read_file (filename : Str)
  | get_file_metadata (filename : Str)
  | list_directory_contents (directory : Option Str)
  | write_to_file (filename : Str) (content : Str) (mode : Option Mode)
  | run_command (command : Str)
  | create_directory (directory_name : Str)
deriving DecidableEq

/-- A planner-issued tool invocation: the opaque identifier assigned by
the planner plus the operation and its arguments. -/
structure ToolCall where
  id : Str
  args : ToolArgs
deriving DecidableEq

/-- The payload serialized into a tool response, one shape per executor
family, mirroring what `json.dumps` receives in `_handle_tool_calls`. -/
inductive ToolOutput
  | readResult (r : Option Str)
  | metadataResult (r : Option Metadata)
  | listResult (r : Option DirListing)
  | successResult (success : Bool)
  | cmdResult (r : Option CmdResult)
deriving DecidableEq

/-- One entry of the list `_handle_tool_calls` returns. -/
structure ToolResponse where
  tool_call_id : Str
  output : ToolOutput
deriving DecidableEq

/-- One arm of the dispatch in `_handle_tool_calls` (lines 479-521):
extract the arguments (applying the documented defaults "." and "w" for
the optional ones), invoke the matching executor, and echo the invocation
identifier into the response. -/
def dispatchOne (shell : Shell) (cwd : List Str) (fs : FS) (tc : ToolCall) :
    ToolResponse × FS :=
  match tc.args with
  | ToolArgs.read_file fn =>
      ({ tool_call_id := tc.id, output := ToolOutput.readResult (read_file cwd fs fn) }, fs)
  | ToolArgs.get_file_metadata fn =>
      ({ tool_call_id := tc.id, output := ToolOutput.metadataResult (get_file_metadata cwd fs fn) }, fs)
  | ToolArgs.list_directory_contents d =>
      ({ tool_call_id := tc.id,
         output := ToolOutput.listResult (list_directory_contents cwd fs (d.getD ( ".".toList))) }, fs)
  | ToolArgs.write_to_file fn content mode =>
      ({ tool_call_id := tc.id,
         output := ToolOutput.successResult (write_to_file cwd fs fn content (mode.getD Mode.w)).1 },
       (write_to_file cwd fs fn content (mode.getD Mode.w)).2)
  | ToolArgs.run_command c =>
      ({ tool_call_id := tc.id, output := ToolOutput.cmdResult (run_command shell fs c).1 },
       (run_command shell fs c).2)
  | ToolArgs.create_directory d =>
      ({ tool_call_id := tc.id, output := ToolOutput.successResult (create_directory cwd fs d).1 },
       (create_directory cwd fs d).2)

/-- Source method `_handle_tool_calls` (lines 467-523): fold over the
batch in the order received, threading the filesystem state, collecting
one response per invocation. -/
def _handle_tool_calls (shell : Shell) (cwd : List Str) (fs : FS) :
    List ToolCall → List ToolResponse × FS
  | [] => ([], fs)
  | tc :: rest =>
    ((dispatchOne shell cwd fs tc).1 ::
       (_handle_tool_calls shell cwd (dispatchOne shell cwd fs tc).2 rest).1,
     (_handle_tool_calls shell cwd (dispatchOne shell cwd fs tc).2 rest).2)

/-- A conversation message.  Assistant messages may carry tool
invocations; tool messages answer one invocation. -/
inductive Message
  | system (content : Str)
  | user (content : Str)
  | assistant (content : Str) (tool_calls : List ToolCall)
  | tool (tool_call_id : Str) (output : ToolOutput)
deriving DecidableEq

/-- One planner (chat-completion) call either fails with an exception
message or returns an assistant reply. -/
inductive PlannerResult
  | error (message : Str)
  | reply (content : Str) (tool_calls : List ToolCall)
deriving DecidableEq

/-- The planner service is an oracle from the conversation so far to one
reply. -/
abbrev Planner := List Message → PlannerResult

/-- One audit-trail entry of `actions_taken`: a dispatched action with its
result, or a recorded planner failure. -/
inductive ActionRecord
  | action (step : Nat) (args : ToolArgs) (result : ToolOutput)
  | failure (step : Nat) (message : Str)
deriving DecidableEq

/-- The state of one `generate_project` run: the conversation, the audit
trail, the tracked file and directory names, the filesystem and the step
counter. -/
structure GenState where
  messages : List Message
  actions : List ActionRecord
  files : List Str
  dirs : List Str
  fs : FS
  step : Nat
deriving DecidableEq

/-- The name a `write_to_file` invocation would append to the generated
files list, if any. -/
def writeTargetOf (tc : ToolCall) : Option Str :=
  match tc.args with
  | ToolArgs.write_to_file fn _ _ => some fn
  | _ => none

/-- The name a `create_directory` invocation would append to the generated
directories list, if any. -/
def dirTargetOf (tc : ToolCall) : Option Str :=
  match tc.args with
  | ToolArgs.create_directory d => some d
  | _ => none

/-- One pass of the tracking loop in `generate_project` (lines 605-623):
append the target name of a directory-creation or file-write invocation
to the respective list and append the audit record; the response
contributes only to the audit record, never to the name lists. -/
def trackOne (step : Nat) (acc : List Str × List Str × List ActionRecord)
    (pr : ToolCall × ToolResponse) : List Str × List Str × List ActionRecord :=
  (acc.1 ++ (writeTargetOf pr.1).toList,
   acc.2.1 ++ (dirTargetOf pr.1).toList,
   acc.2.2 ++ [ActionRecord.action step pr.1.args pr.2.output])

/-- The tracking loop over the zipped invocations and responses. -/
def trackCalls (step : Nat) (files dirs : List Str) (actions : List ActionRecord)
    (pairs : List (ToolCall × ToolResponse)) : List Str × List Str × List ActionRecord :=
  pairs.foldl (trackOne step) (files, dirs, actions)

/-- Substring containment on character lists (Python `in` on strings). -/
def containsSub (hay pat : Str) : Bool :=
  hay.tails.any (fun t => pat.isPrefixOf t)

/-- The first completion phrase the loop looks for. -/
def phraseGeneration : Str := "project generation is complete".toList

/-- The second completion phrase the loop looks for. -/
def phraseStructure : Str := "project structure is now complete".toList

/-- The completion test of the loop (line 636): lowercase the reply text
and look for either phrase as a substring. -/
def completionFound (content : Str) : Bool :=
  containsSub (lowerStr content) phraseGeneration ||
    containsSub (lowerStr content) phraseStructure

/-- Modelled from the claim wording, for comparison with the source test:
some segment of the reply text lower-cases to one of the two completion
phrases. -/
def completionSpec (content : Str) : Prop :=
  (∃ l seg r, content = l ++ seg ++ r ∧ lowerStr seg = phraseGeneration) ∨
  (∃ l seg r, content = l ++ seg ++ r ∧ lowerStr seg = phraseStructure)

/-- The synthetic continuation prompt (lines 641-644). -/
def continuePrompt : Str :=
  "Please continue with the next steps to complete the project structure.".toList

/-- The final summary request (lines 655-658). -/
def summaryPrompt : Str :=
  "Provide a summary of what you\x27ve created including the project structure, files, and key features.".toList

/-- The system instruction seeding the conversation (lines 542-552). -/
def systemPrompt : Str :=
  "You are an expert fullstack developer assistant capable of generating complete project structures. You have access to tools that can create directories, write files, and run commands to set up a complete project structure. Focus on creating a well-organized, production-ready project structure with proper files and content. You must work only within the current directory and cannot use sudo commands. When creating files, include proper content that would be expected in a professional project. Be systematic and thorough in your approach.".toList

/-- The user instruction describing the desired project (lines 554-562). -/
def userPrompt (project_type project_name project_description : Str) : Str :=
  "Generate a complete ".toList ++ project_type ++ " project named \x27".toList ++
    project_name ++ "\x27 with the following description: ".toList ++ project_description ++
    "\n\nPlease create the directory structure, all necessary files with appropriate content, and include configuration files, code files, and documentation. Work step by step to build a production-ready project structure.".toList

/-- The seeded loop state: system and user instruction, empty trackers,
step zero (lines 537-571). -/
def initState (fs0 : FS) (project_type project_name project_description : Str) : GenState :=
  { messages := [Message.system systemPrompt,
      Message.user (userPrompt project_type project_name project_description)],
    actions := [], files := [], dirs := [], fs := fs0, step := 0 }

/-- The step ceiling (line 570). -/
def max_steps : Nat := 25

/-- The while-loop of `generate_project` (lines 578-652), with the
remaining budget as fuel (`fuel = max_steps - step` on entry, so the loop
guard `step < max_steps` is exactly `fuel > 0`).  Each iteration first
increments the step counter, then calls the planner with the conversation
so far, and either records a planner failure and stops, dispatches the
batch of tool invocations and loops, or handles a text-only reply
(stopping on a completion phrase, otherwise appending the continuation
prompt and looping). -/
def genLoop (planner : Planner) (shell : Shell) (cwd : List Str) :
    Nat → GenState → GenState
  | 0, st => st
  | fuel + 1, st =>
    match planner st.messages with
    | PlannerResult.error e =>
      { st with
        step := st.step + 1,
        actions := st.actions ++ [ActionRecord.failure (st.step + 1) e] }
    | PlannerResult.reply content tcs =>
      if tcs.isEmpty then
        if completionFound content then
          { st with
            step := st.step + 1,
            messages := st.messages ++ [Message.assistant content tcs] }
        else
          genLoop planner shell cwd fuel
            { st with
              step := st.step + 1,
              messages := st.messages ++
                [Message.assistant content tcs, Message.user continuePrompt] }
      else
        genLoop planner shell cwd fuel
          { st with
            step := st.step + 1,
            messages := (st.messages ++ [Message.assistant content tcs]) ++
              (_handle_tool_calls shell cwd st.fs tcs).1.map
                (fun r => Message.tool r.tool_call_id r.output),
            fs := (_handle_tool_calls shell cwd st.fs tcs).2,
            files := (trackCalls (st.step + 1) st.files st.dirs st.actions
              (tcs.zip (_handle_tool_calls shell cwd st.fs tcs).1)).1,
            dirs := (trackCalls (st.step + 1) st.files st.dirs st.actions
              (tcs.zip (_handle_tool_calls shell cwd st.fs tcs).1)).2.1,
            actions := (trackCalls (st.step + 1) st.files st.dirs st.actions
              (tcs.zip (_handle_tool_calls shell cwd st.fs tcs).1)).2.2 }

/-- The loop state at loop exit, before the final summary call. -/
def preSummaryState (planner : Planner) (shell : Shell) (cwd : List Str) (fs0 : FS)
    (project_type project_name project_description : Str) : GenState :=
  genLoop planner shell cwd max_steps
    (initState fs0 project_type project_name project_description)

/-- The session summary record `generate_project` returns (lines
671-682).  The wall-clock duration field is outside the model. -/
structure Summary where
  project_name : Str
  project_type : Str
  total_steps : Nat
  total_files : Nat
  total_directories : Nat
  files_created : List Str
  directories_created : List Str
  summary : Str
  actions : List ActionRecord
deriving DecidableEq

/-- Source method `generate_project` (lines 525-682): seed the
conversation, run the loop, then append the summary request and make one
final planner call.  The loop body catches planner failures (recording
them and stopping), but this final call sits outside any try block, so
its failure escapes to the caller, modelled by `Except.error`. -/
def generate_project (planner : Planner) (shell : Shell) (cwd : List Str) (fs0 : FS)
    (project_type project_name project_description : Str) : Except Str Summary :=
  match planner ((preSummaryState planner shell cwd fs0
      project_type project_name project_description).messages ++
      [Message.user summaryPrompt]) with
  | PlannerResult.error e => Except.error e
  | PlannerResult.reply c _ =>
    Except.ok
      { project_name := project_name,
        project_type := project_type,
        total_steps := (preSummaryState planner shell cwd fs0
          project_type project_name project_description).step,
        total_files := (preSummaryState planner shell cwd fs0
          project_type project_name project_description).files.length,
        total_directories := (preSummaryState planner shell cwd fs0
          project_type project_name project_description).dirs.length,
        files_created := (preSummaryState planner shell cwd fs0
          project_type project_name project_description).files,
        directories_created := (preSummaryState planner shell cwd fs0
          project_type project_name project_description).dirs,
        summary := c,
        actions := (preSummaryState planner shell cwd fs0
          project_type project_name project_description).actions }

/-- A planner that always fails, used in the C2 counterexample. -/
def plannerAllError (e : Str) : Planner := fun _ => PlannerResult.error e

/-- A planner that fails during the loop (while the conversation holds
only the two seeded messages) but answers the final summary request,
exhibiting the asymmetric failure handling of the loop. -/
def plannerMidFail (e c : Str) : Planner := fun ms =>
  if ms.length ≤ 2 then PlannerResult.error e else PlannerResult.reply c []

/-- A planner that always answers with plain text, never errs and never
utters a completion phrase, used for the termination claim. -/
def plannerChatty : Planner := fun _ => PlannerResult.reply ( "keep going".toList) []

/-- A mixed-case completion announcement, exercising the case-insensitive
phrase match. -/
def doneContent : Str := "The Project Generation Is Complete.".toList

/-- A planner that immediately announces completion in mixed case. -/
def plannerDone : Planner := fun _ => PlannerResult.reply doneContent []

/-!  Theorems.  -/

/-- `Char.ofNat` keeps the code point when it is a valid scalar value
below the surrogate range. -/
theorem toNat_ofNat_of_lt {m : Nat} (h : m < 55296) : (Char.ofNat m).toNat = m := by
  unfold Char.ofNat
  rw [dif_pos (Or.inl h)]
  rfl

/-- Characters are equal exactly when their code points are. -/
theorem char_eq_iff_toNat {c d : Char} : c = d ↔ c.toNat = d.toNat := by
  rw [Char.ext_iff, UInt32.ext_iff]
  exact Iff.rfl

/-- ASCII lower-casing maps the uppercase letters into the lowercase
letters and fixes every other character, so it preserves whitespace-ness. -/
theorem isWhitespace_toLower (c : Char) :
    (Char.toLower c).isWhitespace = c.isWhitespace := by
  unfold Char.toLower
  dsimp only
  split
  · rename_i h
    obtain ⟨h1, h2⟩ := h
    have hv : (Char.ofNat (Char.toNat c + 32)).toNat = Char.toNat c + 32 :=
      toNat_ofNat_of_lt (by omega)
    have hws1 : (Char.ofNat (Char.toNat c + 32)).isWhitespace = false := by
      simp only [Char.isWhitespace, Bool.or_eq_false_iff, decide_eq_false_iff_not,
        char_eq_iff_toNat, hv, show Char.toNat ' ' = 32 from rfl,
        show Char.toNat '\t' = 9 from rfl, show Char.toNat '\r' = 13 from rfl,
        show Char.toNat '\n' = 10 from rfl]
      omega
    have hws2 : c.isWhitespace = false := by
      simp only [Char.isWhitespace, Bool.or_eq_false_iff, decide_eq_false_iff_not,
        char_eq_iff_toNat, show Char.toNat ' ' = 32 from rfl,
        show Char.toNat '\t' = 9 from rfl, show Char.toNat '\r' = 13 from rfl,
        show Char.toNat '\n' = 10 from rfl]
      omega
    rw [hws1, hws2]
  · rfl

/-- Lower-casing a string commutes with whitespace splitting, because
lower-casing preserves whitespace-ness of every character. -/
theorem splitWsAux_map_toLower (s acc : Str) :
    splitWsAux (lowerStr s) (lowerStr acc) = (splitWsAux s acc).map lowerStr := by
  induction s generalizing acc with
  | nil =>
    simp only [lowerStr, List.map_nil, splitWsAux]
    by_cases h : acc = []
    · simp [h]
    · have h2 : ¬ (List.map Char.toLower acc = []) := by
        simpa [List.map_eq_nil_iff] using h
      simp [h, h2, List.map_reverse, lowerStr]
  | cons c cs ih =>
    simp only [lowerStr, List.map_cons, splitWsAux, isWhitespace_toLower]
    by_cases hw : c.isWhitespace
    · by_cases ha : acc = []
      · subst ha
        simpa [lowerStr, hw] using ih []
      · have h2 : ¬ (List.map Char.toLower acc = []) := by
          simpa [List.map_eq_nil_iff] using ha
        have := ih []
        simp only [lowerStr, List.map_nil] at this
        simp [hw, ha, h2, List.map_reverse, lowerStr, this]
    · simpa [hw, lowerStr] using ih (c :: acc)

/-- Claim C5: the command guard rejects exactly the commands containing a
whitespace-delimited token that lower-cases to the literal "sudo"; the
match is token-exact, as the two concrete examples from the spec show. -/
theorem C5_command_guard_token_exact (command : Str) :
    (is_safe_command command = false ↔ ∃ t ∈ splitWs command, lowerStr t = sudoTok) ∧
    is_safe_command ( "sudo rm -rf /".toList) = false ∧
    is_safe_command ( "echo sudoku".toList) = true := by
  refine ⟨?_, by decide, by decide⟩
  have hsplit : splitWs (lowerStr command) = (splitWs command).map lowerStr := by
    simpa [splitWs, lowerStr] using splitWsAux_map_toLower command []
  constructor
  · intro hfalse
    by_cases h : sudoTok ∈ (splitWs command).map lowerStr
    · obtain ⟨t, ht, hteq⟩ := List.mem_map.mp h
      exact ⟨t, ht, hteq⟩
    · rw [is_safe_command, hsplit] at hfalse
      simp [h] at hfalse
  · rintro ⟨t, ht, hteq⟩
    have hmem : sudoTok ∈ (splitWs command).map lowerStr :=
      List.mem_map.mpr ⟨t, ht, hteq⟩
    rw [is_safe_command, hsplit]
    simp [hmem]

/-- Joining components distributes over an append whose left part is
nonempty. -/
theorem joinComps_append (xs : List Str) (y : Str) (ys : List Str) (hxs : xs ≠ []) :
    joinComps (xs ++ y :: ys) = joinComps xs ++ '/' :: joinComps (y :: ys) := by
  induction xs with
  | nil => simp at hxs
  | cons a as ih =>
    cases as with
    | nil => simp [joinComps]
    | cons b bs =>
      have ihx := ih (by simp)
      simp only [List.cons_append, joinComps] at ihx ⊢
      simp [ihx]

/-- A componentwise prefix renders to a string prefix. -/
theorem renderAbs_mono {cwd a : List Str} (h : cwd <+: a) :
    List.IsPrefix (renderAbs cwd) (renderAbs a) := by
  obtain ⟨rest, hrest⟩ := h
  subst hrest
  cases rest with
  | nil => simp
  | cons y ys =>
    cases cwd with
    | nil => exact ⟨joinComps (y :: ys), rfl⟩
    | cons c cs =>
      refine ⟨'/' :: joinComps (y :: ys), ?_⟩
      show renderAbs (c :: cs) ++ '/' :: joinComps (y :: ys) = renderAbs ((c :: cs) ++ y :: ys)
      simp only [renderAbs]
      rw [joinComps_append (c :: cs) y ys (by simp)]
      rfl

/-- Claim C1 (amended): the path guard accepts every candidate whose
resolved absolute form is equal to or a descendant of the resolved working
directory, and the ".." traversal from the spec example is rejected; the
converse of the acceptance direction fails, because the containment test
is a string-prefix test (see the counterexample theorem). -/
theorem C1_path_guard_amended (cwd : List Str) (p : Str)
    (hcwd : absComps cwd (renderAbs cwd) = cwd) :
    (isPathSafeSpec cwd p → is_safe_path cwd p = true) ∧
    is_safe_path [ "home".toList, "user".toList, "proj".toList]
      ( "../../etc/passwd".toList) = false := by
  refine ⟨?_, by decide⟩
  intro hspec
  unfold is_safe_path
  rw [hcwd]
  rw [ List.isPrefixOf_iff_prefix]
  exact renderAbs_mono hspec

/-- Claim C1 as stated is false on the code: with working directory
/a/proj, the sibling path /a/project is accepted by the guard even though
its resolved form is neither the working directory nor a descendant of it,
because `startswith` compares raw strings. -/
theorem C1_counterexample_sibling :
    is_safe_path [ "a".toList, "proj".toList] ( "/a/project".toList) = true ∧
    ¬ isPathSafeSpec [ "a".toList, "proj".toList] ( "/a/project".toList) := by
  exact ⟨by decide, by decide⟩

/-- Witness for the amended claim C1 at a concrete working directory and a
concrete descendant path. -/
theorem C1_path_guard_amended_witness :
    (absComps [ "home".toList, "user".toList] (renderAbs [ "home".toList, "user".toList]) =
      [ "home".toList, "user".toList] ∧
     isPathSafeSpec [ "home".toList, "user".toList] ( "docs/a.txt".toList)) ∧
    (is_safe_path [ "home".toList, "user".toList] ( "docs/a.txt".toList) = true ∧
     is_safe_path [ "home".toList, "user".toList, "proj".toList]
       ( "../../etc/passwd".toList) = false) :=
  ⟨⟨by decide, by decide⟩,
   C1_path_guard_amended [ "home".toList, "user".toList] ( "docs/a.txt".toList)
     (by decide) |>.imp (fun h => h (by decide)) id⟩

/-- Claim C7: when the guard denies the path or the command, each of the
six executors returns its normal failure value without touching the
filesystem and without invoking the shell; the guard check is the first
thing each executor evaluates, as in the source. -/
theorem C7_guard_refusal_no_side_effect (cwd : List Str) (fs : FS) (shell : Shell)
    (p c content : Str) (mode : Mode)
    (hp : is_safe_path cwd p = false) (hc : is_safe_command c = false) :
    read_file cwd fs p = none ∧
    get_file_metadata cwd fs p = none ∧
    list_directory_contents cwd fs p = none ∧
    write_to_file cwd fs p content mode = (false, fs) ∧
    run_command shell fs c = (none, fs) ∧
    create_directory cwd fs p = (false, fs) := by
  refine ⟨?_, ?_, ?_, ?_, ?_, ?_⟩ <;>
    simp [read_file, get_file_metadata, list_directory_contents, write_to_file,
      run_command, create_directory, hp, hc]

/-- Witness for claim C7 at a concrete escaping path and a concrete sudo
command. -/
theorem C7_guard_refusal_no_side_effect_witness :
    (is_safe_path [ "w".toList] ( "/etc/passwd".toList) = false ∧
     is_safe_command ( "sudo ls".toList) = false) ∧
    (read_file [ "w".toList] ⟨[], []⟩ ( "/etc/passwd".toList) = none ∧
     get_file_metadata [ "w".toList] ⟨[], []⟩ ( "/etc/passwd".toList) = none ∧
     list_directory_contents [ "w".toList] ⟨[], []⟩ ( "/etc/passwd".toList) = none ∧
     write_to_file [ "w".toList] ⟨[], []⟩ ( "/etc/passwd".toList) ( "x".toList) Mode.w =
       (false, ⟨[], []⟩) ∧
     run_command shellNop ⟨[], []⟩ ( "sudo ls".toList) = (none, ⟨[], []⟩) ∧
     create_directory [ "w".toList] ⟨[], []⟩ ( "/etc/passwd".toList) = (false, ⟨[], []⟩)) :=
  ⟨⟨by decide, by decide⟩,
   C7_guard_refusal_no_side_effect [ "w".toList] ⟨[], []⟩ shellNop
     ( "/etc/passwd".toList) ( "sudo ls".toList) ( "x".toList) Mode.w
     (by decide) (by decide)⟩

/-- Membership in `insertAll` is membership in either list. -/
theorem mem_insertAll (y : AbsPath) (xs d : List AbsPath) :
    y ∈ insertAll xs d ↔ y ∈ xs ∨ y ∈ d := by
  induction xs generalizing d with
  | nil => simp [insertAll]
  | cons x xs ih =>
    have hstep : insertAll (x :: xs) d = insertAll xs (if x ∈ d then d else d ++ [x]) := rfl
    rw [hstep]
    by_cases hx : x ∈ d
    · rw [if_pos hx, ih]
      constructor
      · intro h
        rcases h with h | h
        · exact Or.inl (List.mem_cons_of_mem x h)
        · exact Or.inr h
      · intro h
        rcases h with h | h
        · rcases List.mem_cons.mp h with rfl | h2
          · exact Or.inr hx
          · exact Or.inl h2
        · exact Or.inr h
    · rw [if_neg hx, ih]
      simp only [List.mem_append, List.mem_cons, List.mem_singleton]
      tauto

/-- Inserting only already-present paths changes nothing. -/
theorem insertAll_of_subset {xs d : List AbsPath} (h : ∀ x ∈ xs, x ∈ d) :
    insertAll xs d = d := by
  induction xs with
  | nil => rfl
  | cons x xs ih =>
    have hstep : insertAll (x :: xs) d = insertAll xs (if x ∈ d then d else d ++ [x]) := rfl
    rw [hstep, if_pos (h x (by simp))]
    exact ih (fun z hz => h z (by simp [hz]))

/-- When the guard accepts the path and no file blocks the directory
chain, `create_directory` succeeds and adds exactly the missing chain. -/
theorem create_directory_succeeds (cwd : List Str) (fs : FS) (name : Str)
    (hsafe : is_safe_path cwd name = true)
    (hnofile : ∀ q ∈ (absComps cwd name).inits, fs.isfile q = false) :
    create_directory cwd fs name =
      (true, { fs with dirs := insertAll (absComps cwd name).inits fs.dirs }) := by
  have hany : ((absComps cwd name).inits.any (fun q => fs.isfile q)) = false := by
    rw [List.any_eq_false]
    intro q hq
    simp [hnofile q hq]
  have hmk : fs.makedirs (absComps cwd name) true =
      some { fs with dirs := insertAll (absComps cwd name).inits fs.dirs } := by
    simp [FS.makedirs, hany]
  simp [create_directory, hsafe, hmk]

/-- Claim C9: `create_directory` is idempotent: under the path guard and
with no file standing in the way of the directory chain, the first call
succeeds, and a second identical call succeeds again and returns the
filesystem exactly as the first call left it. -/
theorem C9_create_directory_idempotent (cwd : List Str) (fs : FS) (name : Str)
    (hsafe : is_safe_path cwd name = true)
    (hnofile : ∀ q ∈ (absComps cwd name).inits, fs.isfile q = false) :
    (create_directory cwd fs name).1 = true ∧
    create_directory cwd (create_directory cwd fs name).2 name =
      (true, (create_directory cwd fs name).2) := by
  have h1 := create_directory_succeeds cwd fs name hsafe hnofile
  rw [h1]
  refine ⟨rfl, ?_⟩
  have h2 := create_directory_succeeds cwd
    { fs with dirs := insertAll (absComps cwd name).inits fs.dirs } name hsafe
    (fun q hq => hnofile q hq)
  rw [h2]
  have h3 : insertAll (absComps cwd name).inits
      (insertAll (absComps cwd name).inits fs.dirs) =
      insertAll (absComps cwd name).inits fs.dirs :=
    insertAll_of_subset (fun x hx => (mem_insertAll x _ _).mpr (Or.inl hx))
  simp [h3]

/-- Witness for claim C9: creating the nested directory a/b twice inside
the working directory /w. -/
theorem C9_create_directory_idempotent_witness :
    (is_safe_path [ "w".toList] ( "a/b".toList) = true ∧
     ∀ q ∈ (absComps [ "w".toList] ( "a/b".toList)).inits,
       FS.isfile ⟨[[ "w".toList]], []⟩ q = false) ∧
    ((create_directory [ "w".toList] ⟨[[ "w".toList]], []⟩ ( "a/b".toList)).1 = true ∧
     create_directory [ "w".toList]
       (create_directory [ "w".toList] ⟨[[ "w".toList]], []⟩ ( "a/b".toList)).2 ( "a/b".toList) =
       (true, (create_directory [ "w".toList] ⟨[[ "w".toList]], []⟩ ( "a/b".toList)).2)) :=
  ⟨⟨by decide, by decide⟩,
   C9_create_directory_idempotent [ "w".toList] ⟨[[ "w".toList]], []⟩ ( "a/b".toList)
     (by decide) (by decide)⟩

/-- The dispatcher echoes the identifier of the invocation it answers. -/
theorem dispatchOne_id (shell : Shell) (cwd : List Str) (fs : FS) (tc : ToolCall) :
    (dispatchOne shell cwd fs tc).1.tool_call_id = tc.id := by
  cases tc with
  | mk i args => cases args <;> rfl

/-- The dispatcher returns one response per invocation. -/
theorem handle_length (shell : Shell) (cwd : List Str) (fs : FS) (calls : List ToolCall) :
    (_handle_tool_calls shell cwd fs calls).1.length = calls.length := by
  induction calls generalizing fs with
  | nil => rfl
  | cons tc rest ih => simp [_handle_tool_calls, ih]

/-- The i-th response is the dispatch of the i-th invocation against the
filesystem state left by the preceding invocations. -/
theorem handle_getElem (shell : Shell) (cwd : List Str) (fs : FS) (calls : List ToolCall)
    (i : Nat) :
    (_handle_tool_calls shell cwd fs calls).1[i]? =
      calls[i]?.map (fun tc =>
        (dispatchOne shell cwd (_handle_tool_calls shell cwd fs (calls.take i)).2 tc).1) := by
  induction calls generalizing fs i with
  | nil => simp [_handle_tool_calls]
  | cons tc rest ih =>
    cases i with
    | zero => simp [_handle_tool_calls]
    | succ n =>
      simp only [_handle_tool_calls, List.getElem?_cons_succ, List.take_succ_cons]
      exact ih ((dispatchOne shell cwd fs tc).2) n

/-- Claim C4: for every batch, the dispatcher returns exactly one response
per invocation, emitted in the order the invocations were received with
the matching identifier echoed; and the i-th response is a function of
the i-th invocation and the filesystem state left by the preceding
invocations alone - it never reads the other responses. -/
theorem C4_dispatcher_order_and_independence (shell : Shell) (cwd : List Str) (fs : FS)
    (calls : List ToolCall) :
    ((_handle_tool_calls shell cwd fs calls).1.length = calls.length) ∧
    (∀ i : Nat, ((_handle_tool_calls shell cwd fs calls).1[i]?.map
        (fun r => r.tool_call_id)) = calls[i]?.map (fun tc => tc.id)) ∧
    (∀ i : Nat, (_handle_tool_calls shell cwd fs calls).1[i]? =
      calls[i]?.map (fun tc =>
        (dispatchOne shell cwd (_handle_tool_calls shell cwd fs (calls.take i)).2 tc).1)) := by
  refine ⟨handle_length shell cwd fs calls, ?_, fun i => handle_getElem shell cwd fs calls i⟩
  intro i
  rw [handle_getElem]
  cases calls[i]? with
  | none => rfl
  | some tc => simp [dispatchOne_id]

/-- The tracking fold appends exactly the write targets to the files list
and exactly the directory targets to the directories list. -/
theorem trackCalls_names (step : Nat) (pairs : List (ToolCall × ToolResponse))
    (files dirs : List Str) (actions : List ActionRecord) :
    (trackCalls step files dirs actions pairs).1 =
      files ++ pairs.filterMap (fun pr => writeTargetOf pr.1) ∧
    (trackCalls step files dirs actions pairs).2.1 =
      dirs ++ pairs.filterMap (fun pr => dirTargetOf pr.1) := by
  induction pairs generalizing files dirs actions with
  | nil => simp [trackCalls]
  | cons pr rest ih =>
    have hstep : trackCalls step files dirs actions (pr :: rest) =
        trackCalls step (files ++ (writeTargetOf pr.1).toList)
          (dirs ++ (dirTargetOf pr.1).toList)
          (actions ++ [ActionRecord.action step pr.1.args pr.2.output]) rest := rfl
    rw [hstep]
    obtain ⟨h1, h2⟩ := ih (files ++ (writeTargetOf pr.1).toList)
      (dirs ++ (dirTargetOf pr.1).toList)
      (actions ++ [ActionRecord.action step pr.1.args pr.2.output])
    rw [h1, h2]
    constructor
    · cases hw : writeTargetOf pr.1 <;> simp [List.filterMap_cons, hw]
    · cases hd : dirTargetOf pr.1 <;> simp [List.filterMap_cons, hd]

/-- Claim C10: the tracking pass of the loop appends the target filename
of every `write_to_file` invocation and the directory name of every
`create_directory` invocation unconditionally - the resulting lists are a
function of the invocations alone and never consult the zipped responses,
so a name lands in the generated lists even when its executor reported
failure (`genLoop` feeds this fold with the dispatcher responses). -/
theorem C10_names_tracked_regardless_of_success (step : Nat) (files dirs : List Str)
    (actions : List ActionRecord) (calls : List ToolCall) (resps : List ToolResponse)
    (hlen : resps.length = calls.length) :
    (trackCalls step files dirs actions (calls.zip resps)).1 =
      files ++ calls.filterMap writeTargetOf ∧
    (trackCalls step files dirs actions (calls.zip resps)).2.1 =
      dirs ++ calls.filterMap dirTargetOf := by
  obtain ⟨h1, h2⟩ := trackCalls_names step (calls.zip resps) files dirs actions
  rw [h1, h2]
  have hfst : (calls.zip resps).map (fun pr => pr.1) = calls :=
    List.map_fst_zip calls resps (by omega)
  constructor
  · congr 1
    conv_rhs => rw [← hfst]
    rw [List.filterMap_map]
    rfl
  · congr 1
    conv_rhs => rw [← hfst]
    rw [List.filterMap_map]
    rfl

/-- Witness for claim C10: one write invocation whose response reports
failure; its filename is tracked anyway. -/
theorem C10_names_tracked_regardless_of_success_witness :
    ([(⟨ "1".toList, ToolOutput.successResult false⟩ : ToolResponse)].length =
      [(⟨ "1".toList, ToolArgs.write_to_file ( "/etc/x".toList) ( "hi".toList) none⟩ :
        ToolCall)].length) ∧
    ((trackCalls 1 [] [] []
        ([(⟨ "1".toList, ToolArgs.write_to_file ( "/etc/x".toList) ( "hi".toList) none⟩ :
          ToolCall)].zip
         [(⟨ "1".toList, ToolOutput.successResult false⟩ : ToolResponse)])).1 =
      [] ++ [(⟨ "1".toList, ToolArgs.write_to_file ( "/etc/x".toList) ( "hi".toList) none⟩ :
        ToolCall)].filterMap writeTargetOf ∧
     (trackCalls 1 [] [] []
        ([(⟨ "1".toList, ToolArgs.write_to_file ( "/etc/x".toList) ( "hi".toList) none⟩ :
          ToolCall)].zip
         [(⟨ "1".toList, ToolOutput.successResult false⟩ : ToolResponse)])).2.1 =
      [] ++ [(⟨ "1".toList, ToolArgs.write_to_file ( "/etc/x".toList) ( "hi".toList) none⟩ :
        ToolCall)].filterMap dirTargetOf) :=
  ⟨rfl, C10_names_tracked_regardless_of_success 1 [] [] [] _ _ rfl⟩

/-- A successful `makedirs` adds exactly the directory chain of the
target and leaves the files untouched. -/
theorem makedirs_eq {fs : FS} {t : AbsPath} {ok : Bool} {fs' : FS}
    (h : fs.makedirs t ok = some fs') :
    fs' = { fs with dirs := insertAll t.inits fs.dirs } := by
  unfold FS.makedirs at h
  split at h
  · exact absurd h (by simp)
  · split at h
    · exact absurd h (by simp)
    · exact (Option.some_inj.mp h).symm

/-- In a well-formed store, every ancestor of a directory is a
directory. -/
theorem isdir_ancestor {fs : FS} (hwf : fs.WF) {p q : AbsPath}
    (hp : fs.isdir p = true) (hq : q <+: p) : fs.isdir q = true := by
  rw [FS.isdir, decide_eq_true_iff] at hp
  rcases hp with rfl | hp
  · obtain ⟨r, hr⟩ := hq
    obtain ⟨rfl, -⟩ := List.append_eq_nil.mp hr
    simp [FS.isdir]
  · exact hwf p hp q ((List.mem_inits _ _).mpr hq)

/-- `makedirs` preserves well-formedness: the inserted chain is itself
closed under ancestors. -/
theorem WF_makedirs {fs fs' : FS} {t : AbsPath} {ok : Bool}
    (hwf : fs.WF) (h : fs.makedirs t ok = some fs') : fs'.WF := by
  rw [makedirs_eq h]
  intro p hp q hq
  rw [List.mem_inits] at hq
  rcases (mem_insertAll p _ _).mp hp with hpt | hpd
  · rw [List.mem_inits] at hpt
    have hqt : q ∈ t.inits := (List.mem_inits _ _).mpr (hq.trans hpt)
    simp [FS.isdir, (mem_insertAll q _ _).mpr (Or.inl hqt)]
  · have hold := hwf p hpd q ((List.mem_inits _ _).mpr hq)
    rw [FS.isdir, decide_eq_true_iff] at hold
    rcases hold with rfl | hqd
    · simp [FS.isdir]
    · simp [FS.isdir, (mem_insertAll q _ _).mpr (Or.inr hqd)]

/-- Directory-ness only reads the directory store. -/
theorem isdir_eq_of_dirs {a b : FS} (h : a.dirs = b.dirs) (p : AbsPath) :
    a.isdir p = b.isdir p := by
  rw [FS.isdir, FS.isdir, h]

/-- File lookup only reads the file store. -/
theorem getFile_eq_of_files {a b : FS} (h : a.files = b.files) (p : AbsPath) :
    a.getFile p = b.getFile p := by
  rw [FS.getFile, FS.getFile, h]

/-- What a successful `openWrite` guarantees: the parent is a directory,
the directory store is unchanged, and the target file now holds the
content dictated by the mode. -/
theorem openWrite_eq {fs fs' : FS} {t : AbsPath} {mode : Mode} {content : Str}
    (h : fs.openWrite t mode content = some fs') :
    fs.isdir t.dropLast = true ∧ fs'.dirs = fs.dirs ∧
    fs'.getFile t = some (writtenContent (fs.getFile t) mode content) := by
  unfold FS.openWrite at h
  split at h
  · exact absurd h (by simp)
  · split at h
    · rename_i hpar
      have hfs' := (Option.some_inj.mp h).symm
      subst hfs'
      refine ⟨hpar, rfl, ?_⟩
      rw [FS.getFile]
      rw [List.find?_cons_of_pos _ (by simp)]
      rfl
    · exact absurd h (by simp)

/-- Claim C6: when `write_to_file` reports success, the whole parent
chain of the target exists as directories in the resulting state (missing
parents were created recursively by `makedirs` before the write), and the
target file holds exactly the requested content - replaced under mode
"w", appended to the old content under mode "a"; and the dispatcher
substitutes the overwrite mode "w" when the invocation omits the mode.
The executor returns a plain boolean success flag by construction of its
type, so an I/O failure is the value `false`, never an exception. -/
theorem C6_write_to_file_correct (cwd : List Str) (fs : FS) (filename content : Str)
    (mode : Mode) (hwf : fs.WF)
    (hok : (write_to_file cwd fs filename content mode).1 = true) :
    (∀ q ∈ (absComps cwd filename).dropLast.inits,
       (write_to_file cwd fs filename content mode).2.isdir q = true) ∧
    ((write_to_file cwd fs filename content mode).2.getFile (absComps cwd filename) =
      some (writtenContent (fs.getFile (absComps cwd filename)) mode content)) ∧
    (∀ (shell : Shell) (i : Str) (fs2 : FS),
       dispatchOne shell cwd fs2 ⟨i, ToolArgs.write_to_file filename content none⟩ =
       dispatchOne shell cwd fs2 ⟨i, ToolArgs.write_to_file filename content (some Mode.w)⟩) := by
  have key : (∀ q ∈ (absComps cwd filename).dropLast.inits,
       (write_to_file cwd fs filename content mode).2.isdir q = true) ∧
      ((write_to_file cwd fs filename content mode).2.getFile (absComps cwd filename) =
        some (writtenContent (fs.getFile (absComps cwd filename)) mode content)) := ?_
  · exact ⟨key.1, key.2, fun shell i fs2 => rfl⟩
  unfold write_to_file at hok ⊢
  by_cases hguard : is_safe_path cwd filename = false
  · rw [if_pos hguard] at hok
    simp at hok
  · rw [if_neg hguard] at hok ⊢
    cases hM : (if dirname filename ≠ [] ∧
        fs.pathExists (absComps cwd (dirname filename)) = false then
        fs.makedirs (absComps cwd (dirname filename)) false
      else some fs) with
    | none =>
      rw [hM] at hok
      simp at hok
    | some fs1 =>
      rw [hM] at hok
      dsimp only at hok ⊢
      cases hW : fs1.openWrite (absComps cwd filename) mode content with
      | none =>
        rw [hW] at hok
        simp at hok
      | some fs2 =>
        rw [hW] at hok
        dsimp only at hok ⊢
        have hfs1 : fs1.WF ∧ fs1.files = fs.files := by
          by_cases hc : dirname filename ≠ [] ∧
              fs.pathExists (absComps cwd (dirname filename)) = false
          · rw [if_pos hc] at hM
            refine ⟨WF_makedirs hwf hM, ?_⟩
            rw [makedirs_eq hM]
          · rw [if_neg hc] at hM
            cases Option.some_inj.mp hM
            exact ⟨hwf, rfl⟩
        obtain ⟨hpar, hdirs, hfile⟩ := openWrite_eq hW
        constructor
        · intro q hq
          rw [List.mem_inits] at hq
          have h1 : fs1.isdir q = true := isdir_ancestor hfs1.1 hpar hq
          show fs2.isdir q = true
          rw [isdir_eq_of_dirs hdirs]
          exact h1
        · show fs2.getFile (absComps cwd filename) = _
          rw [hfile, getFile_eq_of_files hfs1.2]

/-- Witness for claim C6: writing a/b.txt inside the working directory /w
creates the directory a and stores the content. -/
theorem C6_write_to_file_correct_witness :
    (FS.WF ⟨[[ "w".toList]], []⟩ ∧
     (write_to_file [ "w".toList] ⟨[[ "w".toList]], []⟩ ( "a/b.txt".toList) ( "hi".toList)
        Mode.w).1 = true) ∧
    ((∀ q ∈ (absComps [ "w".toList] ( "a/b.txt".toList)).dropLast.inits,
       (write_to_file [ "w".toList] ⟨[[ "w".toList]], []⟩ ( "a/b.txt".toList) ( "hi".toList)
          Mode.w).2.isdir q = true) ∧
     ((write_to_file [ "w".toList] ⟨[[ "w".toList]], []⟩ ( "a/b.txt".toList) ( "hi".toList)
          Mode.w).2.getFile (absComps [ "w".toList] ( "a/b.txt".toList)) =
        some ( "hi".toList)) ∧
     (∀ (shell : Shell) (i : Str) (fs2 : FS),
       dispatchOne shell [ "w".toList] fs2
           ⟨i, ToolArgs.write_to_file ( "a/b.txt".toList) ( "hi".toList) none⟩ =
       dispatchOne shell [ "w".toList] fs2
           ⟨i, ToolArgs.write_to_file ( "a/b.txt".toList) ( "hi".toList) (some Mode.w)⟩)) :=
  ⟨⟨by decide, by decide⟩,
   C6_write_to_file_correct [ "w".toList] ⟨[[ "w".toList]], []⟩ ( "a/b.txt".toList)
     ( "hi".toList) Mode.w (by decide) (by decide)⟩

/-- `containsSub` on a lower-cased haystack finds exactly the segments of
the original text that lower-case to the pattern. -/
theorem containsSub_lower_iff (c pat : Str) :
    containsSub (lowerStr c) pat = true ↔
      ∃ l seg r, c = l ++ seg ++ r ∧ lowerStr seg = pat := by
  rw [containsSub, List.any_eq_true]
  constructor
  · rintro ⟨t, ht, hp⟩
    rw [List.mem_tails] at ht
    rw [ List.isPrefixOf_iff_prefix] at hp
    obtain ⟨s, u, hsu⟩ := List.infix_iff_prefix_suffix.mpr ⟨t, hp, ht⟩
    have hmap : List.map Char.toLower c = s ++ pat ++ u := hsu.symm
    obtain ⟨x, y, hxy, hx, hy⟩ := List.map_eq_append_iff.mp hmap
    obtain ⟨x1, x2, hx12, hx1, hx2⟩ := List.map_eq_append_iff.mp hx
    exact ⟨x1, x2, y, by rw [hxy, hx12], hx2⟩
  · rintro ⟨l, seg, r, rfl, hseg⟩
    refine ⟨pat ++ lowerStr r, ?_, ?_⟩
    · rw [List.mem_tails]
      refine ⟨lowerStr l, ?_⟩
      simp only [lowerStr, List.map_append]
      rw [show List.map Char.toLower seg = pat from hseg]
      simp [List.append_assoc]
    · rw [ List.isPrefixOf_iff_prefix]
      exact List.prefix_append pat (lowerStr r)

/-- The boolean completion test of the loop agrees with the existence of
a case-insensitive occurrence of one of the two phrases. -/
theorem completionFound_iff (content : Str) :
    completionFound content = true ↔ completionSpec content := by
  rw [completionFound, Bool.or_eq_true, containsSub_lower_iff, containsSub_lower_iff]
  unfold completionSpec
  exact Iff.rfl

/-- Claim C8: on a reply carrying no tool invocations the loop tests the
text case-insensitively for one of the two completion phrases (the test
succeeds exactly when some segment of the reply lower-cases to a phrase);
when found, the loop stops right there; otherwise it appends the
synthetic continuation prompt as a user message and proceeds with the
next planner call. -/
theorem C8_completion_or_continuation (planner : Planner) (shell : Shell)
    (cwd : List Str) (fuel : Nat) (st : GenState) (content : Str)
    (h : planner st.messages = PlannerResult.reply content []) :
    (completionFound content = true ↔ completionSpec content) ∧
    (completionFound content = true →
      genLoop planner shell cwd (fuel + 1) st =
        { st with
          step := st.step + 1,
          messages := st.messages ++ [Message.assistant content []] }) ∧
    (completionFound content = false →
      genLoop planner shell cwd (fuel + 1) st =
        genLoop planner shell cwd fuel
          { st with
            step := st.step + 1,
            messages := st.messages ++
              [Message.assistant content [], Message.user continuePrompt] }) := by
  refine ⟨completionFound_iff content, ?_, ?_⟩
  · intro hc
    simp [genLoop, h, hc]
  · intro hc
    simp [genLoop, h, hc]

/-- Witness for claim C8: a planner that announces completion in mixed
case makes the loop stop after one step. -/
theorem C8_completion_or_continuation_witness :
    (plannerDone (initState ⟨[], []⟩ ( "t".toList) ( "n".toList) ( "d".toList)).messages =
      PlannerResult.reply doneContent []) ∧
    ((completionFound doneContent = true ↔ completionSpec doneContent) ∧
     (completionFound doneContent = true →
       genLoop plannerDone shellNop [ "w".toList] 1
           (initState ⟨[], []⟩ ( "t".toList) ( "n".toList) ( "d".toList)) =
         { initState ⟨[], []⟩ ( "t".toList) ( "n".toList) ( "d".toList) with
           step := (initState ⟨[], []⟩ ( "t".toList) ( "n".toList) ( "d".toList)).step + 1,
           messages := (initState ⟨[], []⟩ ( "t".toList) ( "n".toList) ( "d".toList)).messages ++
             [Message.assistant doneContent []] }) ∧
     (completionFound doneContent = false →
       genLoop plannerDone shellNop [ "w".toList] 1
           (initState ⟨[], []⟩ ( "t".toList) ( "n".toList) ( "d".toList)) =
         genLoop plannerDone shellNop [ "w".toList] 0
           { initState ⟨[], []⟩ ( "t".toList) ( "n".toList) ( "d".toList) with
             step := (initState ⟨[], []⟩ ( "t".toList) ( "n".toList) ( "d".toList)).step + 1,
             messages := (initState ⟨[], []⟩ ( "t".toList) ( "n".toList)
               ( "d".toList)).messages ++
               [Message.assistant doneContent [], Message.user continuePrompt] })) :=
  ⟨rfl,
   C8_completion_or_continuation plannerDone shellNop [ "w".toList] 0
     (initState ⟨[], []⟩ ( "t".toList) ( "n".toList) ( "d".toList)) doneContent rfl⟩

/-- Under a planner whose calls never fail and whose text-only replies
never contain a completion phrase - it may issue tool-call batches
freely - every loop iteration consumes exactly one fuel unit and
increments the step counter once: the error branch is never taken, the
tool-dispatch branch and the continuation branch both recurse, and the
completion branch is never taken. -/
theorem genLoop_step_count (planner : Planner) (shell : Shell) (cwd : List Str)
    (h : ∀ ms, ∃ c tcs, planner ms = PlannerResult.reply c tcs ∧
      (tcs.isEmpty = true → completionFound c = false)) :
    ∀ (fuel : Nat) (st : GenState),
      (genLoop planner shell cwd fuel st).step = st.step + fuel := by
  intro fuel
  induction fuel with
  | zero =>
    intro st
    rfl
  | succ n ih =>
    intro st
    obtain ⟨c, tcs, hc, hf⟩ := h st.messages
    by_cases ht : tcs.isEmpty = true
    · have hf2 := hf ht
      simp [genLoop, hc, ht, hf2]
      rw [ih]
      simp
      omega
    · simp [genLoop, hc, ht]
      rw [ih]
      simp
      omega

/-- Claim C3: for any planner behavior whose calls never fail and whose
text-only replies never contain a completion phrase - tool-issuing
replies included - the loop runs exactly `max_steps = 25` iterations
(the budget guard `step < max_steps` becomes `fuel > 0`, checked at the
top of each iteration) and the returned summary reports 25 steps. -/
theorem C3_budget_exhaustion_at_25 (planner : Planner) (shell : Shell) (cwd : List Str)
    (fs0 : FS) (project_type project_name project_description : Str)
    (h : ∀ ms, ∃ c tcs, planner ms = PlannerResult.reply c tcs ∧
      (tcs.isEmpty = true → completionFound c = false)) :
    (generate_project planner shell cwd fs0
        project_type project_name project_description).map (fun s => s.total_steps) =
      Except.ok 25 := by
  obtain ⟨c, tcs, hc, -⟩ := h ((preSummaryState planner shell cwd fs0
    project_type project_name project_description).messages ++ [Message.user summaryPrompt])
  unfold generate_project
  rw [hc]
  simp only [Except.map]
  have hstep := genLoop_step_count planner shell cwd h max_steps
    (initState fs0 project_type project_name project_description)
  unfold preSummaryState
  rw [hstep]
  rfl

/-- Witness for claim C3: the chatty planner exhausts the budget and the
session summary reports 25 steps. -/
theorem C3_budget_exhaustion_at_25_witness :
    (∀ ms, ∃ c tcs, plannerChatty ms = PlannerResult.reply c tcs ∧
      (tcs.isEmpty = true → completionFound c = false)) ∧
    (generate_project plannerChatty shellNop [ "w".toList] ⟨[], []⟩
        ( "t".toList) ( "n".toList) ( "d".toList)).map (fun s => s.total_steps) =
      Except.ok 25 :=
  ⟨fun _ => ⟨ "keep going".toList, [], rfl, fun _ => by decide⟩,
   C3_budget_exhaustion_at_25 plannerChatty shellNop [ "w".toList] ⟨[], []⟩
     ( "t".toList) ( "n".toList) ( "d".toList)
     (fun _ => ⟨ "keep going".toList, [], rfl, fun _ => by decide⟩)⟩

/-- Claim C2 as stated is false on the code: with a planner whose calls
always fail, the one mid-loop failure is caught, but the final synthesis
call fails too and that exception escapes `generate_project` - no Session
Summary is returned and no error text is substituted. -/
theorem C2_counterexample_final_call_escapes :
    generate_project (plannerAllError ( "boom".toList)) shellNop [ "w".toList] ⟨[], []⟩
      ( "t".toList) ( "n".toList) ( "d".toList) = Except.error ( "boom".toList) := by
  rfl

/-- Claim C2 (amended): mid-loop planner failures are caught - the loop
records the failure, stops, and the session still returns a Session
Summary provided the final synthesis call succeeds (first conjunct: a
planner failing on the seeded conversation but answering the summary
request yields a summary carrying the recorded failure); but when the
final synthesis call itself fails, the exception propagates to the caller
instead of the summary being substituted with the error text (second
conjunct). -/
theorem C2_failure_handling_amended (e c project_type project_name project_description : Str)
    (shell : Shell) (cwd : List Str) (fs0 : FS) :
    (generate_project (plannerMidFail e c) shell cwd fs0
        project_type project_name project_description =
      Except.ok
        { project_name := project_name,
          project_type := project_type,
          total_steps := 1,
          total_files := 0,
          total_directories := 0,
          files_created := [],
          directories_created := [],
          summary := c,
          actions := [ActionRecord.failure 1 e] }) ∧
    (∀ planner : Planner,
      planner ((preSummaryState planner shell cwd fs0
          project_type project_name project_description).messages ++
        [Message.user summaryPrompt]) = PlannerResult.error e →
      generate_project planner shell cwd fs0
        project_type project_name project_description = Except.error e) := by
  constructor
  · rfl
  · intro planner hp
    unfold generate_project
    rw [hp]

/-- Witness for the amended claim C2: the mid-loop-failing planner still
produces a summary, and the always-failing planner makes the whole call
fail with the raw error. -/
theorem C2_failure_handling_amended_witness :
    (plannerAllError ( "boom".toList)
        ((preSummaryState (plannerAllError ( "boom".toList)) shellNop [ "w".toList] ⟨[], []⟩
          ( "t".toList) ( "n".toList) ( "d".toList)).messages ++
          [Message.user summaryPrompt]) = PlannerResult.error ( "boom".toList)) ∧
    ((generate_project (plannerMidFail ( "boom".toList) ( "done".toList)) shellNop
        [ "w".toList] ⟨[], []⟩ ( "t".toList) ( "n".toList) ( "d".toList) =
      Except.ok
        { project_name := "n".toList,
          project_type := "t".toList,
          total_steps := 1,
          total_files := 0,
          total_directories := 0,
          files_created := [],
          directories_created := [],
          summary := "done".toList,
          actions := [ActionRecord.failure 1 ( "boom".toList)] }) ∧
     generate_project (plannerAllError ( "boom".toList)) shellNop [ "w".toList] ⟨[], []⟩
        ( "t".toList) ( "n".toList) ( "d".toList) = Except.error ( "boom".toList)) :=
  ⟨rfl,
   (C2_failure_handling_amended ( "boom".toList) ( "done".toList) ( "t".toList) ( "n".toList)
      ( "d".toList) shellNop [ "w".toList] ⟨[], []⟩).1,
   (C2_failure_handling_amended ( "boom".toList) ( "done".toList) ( "t".toList) ( "n".toList)
      ( "d".toList) shellNop [ "w".toList] ⟨[], []⟩).2
     (plannerAllError ( "boom".toList)) rfl⟩

end ProjGen
